import Mathlib

/-!
Shallow embedding of `yark/channel.py` (archive management and the download
pipeline) together with the support types it uses (`Element` value histories,
`Video` items, the change reporter's buckets).  Pure functions of the source
become Lean functions; mutation of the in-memory archive and of the media
directory becomes explicit state passing; calls that raise become `Option` or
`Except` results; `sys.exit(1)` becomes a dedicated fatal result constructor.
-/

namespace Yark

/-- Decidable equality for `Except`, used to evaluate concrete runs of the
fallible operations below. -/
instance {ε α : Type} [DecidableEq ε] [DecidableEq α] : DecidableEq (Except ε α)
  | .ok x, .ok y =>
    if h : x = y then .isTrue (congrArg Except.ok h)
    else .isFalse fun hc => h (Except.ok.inj hc)
  | .error x, .error y =>
    if h : x = y then .isTrue (congrArg Except.error h)
    else .isFalse fun hc => h (Except.error.inj hc)
  | .ok _, .error _ => .isFalse fun hc => Except.noConfusion hc
  | .error _, .ok _ => .isFalse fun hc => Except.noConfusion hc

/-- Modelled from the spec: a Value History (`Element` in `video.py`, which is
not part of the provided sources) is an ordered snapshot log for one attribute.
Snapshots are held most-recent-first; `new` seeds the log with one snapshot,
`current` reads the latest value, and `update` appends a snapshot only when the
new value differs from the current one (no-op writes are suppressed). -/
structure Element (α : Type) where
  hist : List (Nat × α)
deriving DecidableEq

def Element.new {α : Type} (now : Nat) (v : α) : Element α :=
  ⟨[(now, v)]⟩

def Element.current {α : Type} (e : Element α) : Option α :=
  e.hist.head?.map Prod.snd

def Element.update {α : Type} [DecidableEq α] (e : Element α) (now : Nat) (v : α) :
    Element α :=
  if e.current = some v then e else ⟨(now, v) :: e.hist⟩

/-- Modelled from the spec: one freshly fetched metadata entry for a single
item, as consumed by the merge phase.  `formats` is `none` when the raw entry
has no `formats` key at all. -/
structure RawEntry where
  id : String
  title : String
  formats : Option (List String)
  uploaded : Nat
deriving DecidableEq

/-- Modelled from the spec: an `Item` (`Video` in `video.py`, not part of the
provided sources) aggregates immutable identity fields with Value Histories and
derived state.  `downloaded` models the filesystem check for a media file named
by the identifier; `knownNotDeleted` is the "observed in this refresh pass"
marker used by the deletion sweep. -/
structure Video where
  id : String
  uploaded : Nat
  title : Element String
  deleted : Element Bool
  downloaded : Bool
  knownNotDeleted : Bool
deriving DecidableEq

/-- Modelled from the spec: constructing a new `Video` from a raw entry seeds
every Value History (deletion flag defaults to `false`) and marks the item as
observed in this pass. -/
def Video.new (now : Nat) (e : RawEntry) : Video :=
  { id := e.id
    uploaded := e.uploaded
    title := Element.new now e.title
    deleted := Element.new now false
    downloaded := false
    knownNotDeleted := true }

/-- Modelled from the spec: `Video.update` feeds each mapped Value History
through `Element.update` and marks the item as observed in this refresh pass. -/
def Video.update (now : Nat) (v : Video) (e : RawEntry) : Video :=
  { v with title := v.title.update now e.title, knownNotDeleted := true }

/-- Download configuration (`DownloadConfig` in `channel.py`). -/
structure DownloadConfig where
  max_videos : Option Nat
  max_livestreams : Option Nat
  max_shorts : Option Nat
  skip_download : Bool
  skip_metadata : Bool
  format : Option String

/-- The archive root (`Channel` in `channel.py`): three ordered item
collections plus the change reporter's two buckets, which hold item
identifiers in append order. -/
structure Channel where
  url : String
  version : Nat
  videos : List Video
  livestreams : List Video
  shorts : List Video
  addedBucket : List String
  deletedBucket : List String
deriving DecidableEq

/-- Embeds `curate_list` (the inner helper of `Channel._curate`): when a
maximum is present the candidate list is cut to
`min (max (len - 1) 0) maximum` items (the source's
`fixed_maximum = min(max(len(videos) - 1, 0), maximum)` followed by
`for ind in range(fixed_maximum)`), then filtered to undownloaded items. -/
def curate_list (videos : List Video) (maximum : Option Nat) : List Video :=
  let videos :=
    match maximum with
    | none => videos
    | some m => videos.take (min (max (videos.length - 1) 0) m)
  videos.filter (fun v => !v.downloaded)

/-- Embeds `Channel._curate`: the three collections are curated in the fixed
order videos, livestreams, shorts and concatenated. -/
def Channel.curate (c : Channel) (config : DownloadConfig) : List Video :=
  curate_list c.videos config.max_videos
    ++ curate_list c.livestreams config.max_livestreams
    ++ curate_list c.shorts config.max_shorts

/-- Embeds the loop of `Channel.search`: scan a list for the first video whose
id matches; `none` models the `VideoNotFoundException` raised when the loop
finds nothing. -/
def searchList : List Video → String → Option Video
  | [], _ => none
  | v :: rest, id => if v.id = id then some v else searchList rest id

/-- Embeds `Channel.search`: only `self.videos` is scanned. -/
def Channel.search (c : Channel) (id : String) : Option Video :=
  searchList c.videos id

/-! ### Refresh: merge phase and deletion sweep -/

/-- Embeds the skip condition of `_parse_metadata_videos_comp`:
`"formats" not in entry or len(entry["formats"]) == 0`. -/
def skipEntry (e : RawEntry) : Bool :=
  match e.formats with
  | none => true
  | some l => l.isEmpty

/-- Embeds the update-if-exists scan of `_parse_metadata_videos_comp`: walk the
bucket, update (in place) the first video whose id matches the entry, `none`
when the `updated` marker stays false. -/
def updateById (now : Nat) : List Video → RawEntry → Option (List Video)
  | [], _ => none
  | v :: rest, e =>
    if v.id = e.id then some (v.update now e :: rest)
    else
      match updateById now rest e with
      | some rest' => some (v :: rest')
      | none => none

/-- Embeds one iteration of the merge loop of `_parse_metadata_videos_comp`:
skip format-less entries; otherwise update the matching video, or append a new
one and record its id in the reporter's "added" bucket. -/
def mergeEntry (now : Nat) (bucket : List Video) (added : List String)
    (e : RawEntry) : List Video × List String :=
  if skipEntry e then (bucket, added)
  else
    match updateById now bucket e with
    | some bucket' => (bucket', added)
    | none => (bucket ++ [Video.new now e], added ++ [e.id])

/-- Stable insertion used to embed `bucket.sort(reverse=True)`: a video is
placed before the first strictly older one, so equal upload times keep their
encounter order (Python's sort is stable and `reverse=True` preserves the
original order of equal elements). -/
def insertByNewest (v : Video) : List Video → List Video
  | [] => [v]
  | w :: ws => if w.uploaded < v.uploaded then v :: w :: ws else w :: insertByNewest v ws

/-- Embeds the final `bucket.sort(reverse=True)` of
`_parse_metadata_videos_comp`: stable sort, newest upload first. -/
def sortByNewest (videos : List Video) : List Video :=
  videos.foldl (fun acc v => insertByNewest v acc) []

/-- Embeds `Channel._parse_metadata_videos_comp`: fold the merge loop over the
entries, then re-sort the bucket newest-first.  Returns the new bucket and the
reporter's "added" bucket. -/
def parseMetadataVideosComp (now : Nat) (i : List RawEntry) (bucket : List Video)
    (added : List String) : List Video × List String :=
  let p := i.foldl (fun (p : List Video × List String) e => mergeEntry now p.1 p.2 e)
    (bucket, added)
  (sortByNewest p.1, p.2)

/-- Embeds `Channel._report_deleted`: every video whose deletion history is
currently `false` and which was not observed in this pass is appended to the
reporter's "deleted" bucket and has its deletion history updated to `true`
(source order: the reporter append happens before the flip, and both act on the
same item). -/
def reportDeleted (now : Nat) : List Video → List String → List Video × List String
  | [], bucket => ([], bucket)
  | v :: rest, bucket =>
    if v.deleted.current = some false && !v.knownNotDeleted then
      let p := reportDeleted now rest (bucket ++ [v.id])
      ({ v with deleted := v.deleted.update now true } :: p.1, p.2)
    else
      let p := reportDeleted now rest bucket
      (v :: p.1, p.2)

/-! ### Refresh: normalization of the raw metadata document -/

/-- One top-level element of the raw metadata document: either a plain video
entry (its own fields, `nested = none` models a dict without an `entries`
key) or a category group whose `entries` list is `nested`. -/
structure TopEntry where
  title : String
  entry : RawEntry
  nested : Option (List RawEntry)
deriving DecidableEq

/-- Remainder of `l` after removing `sep` as a leading match, `none` when
`sep` is not a leading match (helper for `splitChars`). -/
def dropAfterMatch : List Char → List Char → Option (List Char)
  | [], l => some l
  | _ :: _, [] => none
  | a :: as, b :: bs => if a = b then dropAfterMatch as bs else none

/-- Left-to-right, non-overlapping split of a character list on a separator,
matching the semantics of Python's `str.split(sep)` for a nonempty separator.
The recursion is fuel-bounded so that it stays kernel-reducible; any fuel of
at least the list's length makes it exact, since each step consumes at least
one character. -/
def splitChars (sep : List Char) : Nat → List Char → List Char → List (List Char)
  | _, acc, [] => [acc.reverse]
  | 0, acc, rest => [acc.reverse ++ rest]
  | fuel + 1, acc, c :: rest =>
    match dropAfterMatch sep (c :: rest) with
    | some rem => acc.reverse :: splitChars sep fuel [] rem
    | none => splitChars sep fuel (c :: acc) rest

/-- Embeds `entry["title"].split(" - ")[-1].lower()` from
`Channel._parse_metadata`: last token of the split, lower-cased. -/
def kindOf (title : String) : String :=
  let parts := splitChars " - ".toList (title.toList.length + 1) [] title.toList
  String.mk ((parts.getLastD []).map Char.toLower)

/-- Embeds the normalization fold of `Channel._parse_metadata` over the nested
branch.  For a recognized trailing token the group's `entries` list replaces
that category's entry list (`none` models the `KeyError` Python raises if the
group carries no `entries` key).  For an unrecognized token the source calls
`_err_msg(..., True)` and falls through to the next group: `_err_msg`
(`errors.py`, not among the provided sources) only prints — in `channel.py`
itself every call site that must terminate follows `_err_msg` with an explicit
`sys.exit(1)` (`_migrate_archive`, `_err_dl`), and no such exit follows here —
so the group is dropped and normalization continues. -/
def normalizeGroups (entries : List TopEntry) :
    Option (List RawEntry × List RawEntry × List RawEntry) :=
  entries.foldl
    (fun acc te =>
      acc.bind fun st =>
        let kind := kindOf te.title
        if kind = "videos" then te.nested.map fun n => (n, st.2.1, st.2.2)
        else if kind = "live" then te.nested.map fun n => (st.1, n, st.2.2)
        else if kind = "shorts" then te.nested.map fun n => (st.1, st.2.1, n)
        else some st)
    (some ([], [], []))

/-- Embeds `Channel._parse_metadata`: normalize the document (flat list of
plain entries when the first element has no `entries` key, labeled groups
otherwise), merge each category into its collection, then run the deletion
sweep over all three collections.  `none` models the exceptions Python raises
on an empty `res["entries"]` or a group without an `entries` key. -/
def parseMetadata (now : Nat) (c : Channel) (entries : List TopEntry) :
    Option Channel :=
  match entries.head? with
  | none => none
  | some first =>
    let cats :=
      if first.nested.isNone then some (entries.map (·.entry), [], [])
      else normalizeGroups entries
    cats.map fun st =>
      let pv := parseMetadataVideosComp now st.1 c.videos c.addedBucket
      let pl := parseMetadataVideosComp now st.2.1 c.livestreams pv.2
      let ps := parseMetadataVideosComp now st.2.2 c.shorts pl.2
      let rv := reportDeleted now pv.1 c.deletedBucket
      let rl := reportDeleted now pl.1 rv.2
      let rs := reportDeleted now ps.1 rl.2
      { c with
        videos := rv.1
        livestreams := rl.1
        shorts := rs.1
        addedBucket := ps.2
        deletedBucket := rs.2 }

/-! ### Download pipeline -/

/-- Leading-match test on character lists (helper for `strContains`). -/
def listStartsWith : List Char → List Char → Bool
  | [], _ => true
  | _ :: _, [] => false
  | a :: as, b :: bs => a = b && listStartsWith as bs

/-- Containment of one character list inside another at any position. -/
def listContains (pat : List Char) : List Char → Bool
  | [] => listStartsWith pat []
  | b :: bs => listStartsWith pat (b :: bs) || listContains pat bs

/-- Substring containment, embedding Python's `pat in msg`. -/
def strContains (s pat : String) : Bool :=
  listContains pat.toList s.toList

/-- Embeds the private/removed classification of `Channel.download`:
`"Private video" in exception.msg or "This video has been removed by the
uploader" in exception.msg`. -/
def classifiedDeleted (msg : String) : Bool :=
  strContains msg "Private video"
    || strContains msg "This video has been removed by the uploader"

/-- Embeds the missing-format classification of `Channel.download`:
`" bytes, expected " in exception.msg`. -/
def classifiedFormat (msg : String) : Bool :=
  strContains msg " bytes, expected "

/-- Embeds `_skip_video`: drop everything up to and including the first
undownloaded video (`videos[ind + 1:]`) and return the remainder together with
that video; `none` models the `Exception` raised when every video is already
downloaded. -/
def skipVideo : List Video → Option (List Video × Video)
  | [] => none
  | v :: rest => if !v.downloaded then some (rest, v) else skipVideo rest

/-- Engine model for one `ydl.download(urls)` call: either every requested
video was fetched, or the first `n` were fetched and then a `DownloadError`
with message `msg` was raised. -/
inductive DlResp where
  | ok : DlResp
  | err (n : Nat) (msg : String) : DlResp
deriving DecidableEq

/-- Marks the first `n` videos of a pending list as downloaded (the media
files the fetch engine wrote before failing). -/
def markFront (n : Nat) : List Video → List Video
  | [] => []
  | v :: rest =>
    match n with
    | 0 => v :: rest
    | m + 1 => { v with downloaded := true } :: markFront m rest

/-- Embeds the inner `while True` recovery loop of `Channel.download`, driven
by the trace of engine responses to successive `ydl.download` calls (an
exhausted trace behaves like a success).  On a private/removed classification
the first undownloaded video is skipped, its deletion history is flipped to
`true` and its id appended to the reporter's "deleted" bucket exactly when the
history was currently `false`; on a missing-format classification the video is
skipped without a flip; any other `DownloadError` is re-raised (the `.error`
result, carrying the message plus the state mutations already performed).  The
second result component accumulates the final states of the videos this call
touched, for write-back into the archive's collections. -/
def innerLoop (now : Nat) :
    List DlResp → List Video → List String → List Video →
      Except (String × List Video × List String) (List Video × List String)
  | [], pending, bucket, handled =>
    .ok (handled ++ pending.map (fun v => { v with downloaded := true }), bucket)
  | .ok :: _, pending, bucket, handled =>
    .ok (handled ++ pending.map (fun v => { v with downloaded := true }), bucket)
  | .err n msg :: tr, pending, bucket, handled =>
    let p := markFront n pending
    if classifiedDeleted msg then
      match skipVideo p with
      | some pv =>
        let pre := p.takeWhile (·.downloaded)
        if pv.2.deleted.current = some false then
          innerLoop now tr pv.1 (bucket ++ [pv.2.id])
            (handled ++ pre ++ [{ pv.2 with deleted := pv.2.deleted.update now true }])
        else
          innerLoop now tr pv.1 bucket (handled ++ pre ++ [pv.2])
      | none => .error ("nothing to skip was found", handled ++ p, bucket)
    else if classifiedFormat msg then
      match skipVideo p with
      | some pv =>
        innerLoop now tr pv.1 bucket (handled ++ p.takeWhile (·.downloaded) ++ [pv.2])
      | none => .error ("nothing to skip was found", handled ++ p, bucket)
    else
      .error (msg, handled ++ p, bucket)

/-- Replaces one collection video by its updated state when the download loop
touched it (identity is by id, mirroring the object aliasing of the Python
lists). -/
def applyUpdate (updates : List Video) (v : Video) : Video :=
  match updates.find? (fun u => u.id = v.id) with
  | some u => u
  | none => v

/-- Write-back of the mutations the download loop performed on curated
videos. -/
def applyUpdates (videos updates : List Video) : List Video :=
  videos.map (applyUpdate updates)

/-- Applies the download loop's mutations to the whole archive state. -/
def Channel.applyAll (c : Channel) (updates : List Video) (bucket : List String) :
    Channel :=
  { c with
    videos := applyUpdates c.videos updates
    livestreams := applyUpdates c.livestreams updates
    shorts := applyUpdates c.shorts updates
    deletedBucket := bucket }

/-- Result of `Channel.download`: `completed` models the function returning
normally, `fatal` models `_err_dl`'s terminal `sys.exit(1)` after the last
attempt — there is no partial-success return value. -/
inductive DownloadResult where
  | completed (c : Channel)
  | fatal (c : Channel)
deriving DecidableEq

/-- Embeds the outer `for i in range(5)` retry loop of `Channel.download`,
iterating over the remaining attempt indices.  Every attempt re-curates; an
empty curated list breaks out (success); a completed inner loop breaks out
(success); an exception reaching the outer handler calls
`_err_dl("videos", exception, i != 4)`, which sleeps and retries when
`i != 4` and exits the process on the last attempt.  `engine i` is the
response trace the fetch engine produces during attempt `i`. -/
def downloadAttempts (now : Nat) (config : DownloadConfig)
    (engine : Nat → List DlResp) : List Nat → Channel → DownloadResult
  | [], c => .completed c
  | i :: rest, c =>
    let nd := c.curate config
    if nd.length = 0 then .completed c
    else
      match innerLoop now (engine i) nd c.deletedBucket [] with
      | .ok r => .completed (c.applyAll r.1 r.2)
      | .error r =>
        if i ≠ 4 then downloadAttempts now config engine rest (c.applyAll r.2.1 r.2.2)
        else .fatal (c.applyAll r.2.1 r.2.2)

/-- Embeds `Channel.download` (minus the `.part`-file cleanup, which only
touches the filesystem): at most the five attempts `range(5)`. -/
def Channel.download (now : Nat) (config : DownloadConfig)
    (engine : Nat → List DlResp) (c : Channel) : DownloadResult :=
  downloadAttempts now config engine [0, 1, 2, 3, 4] c

/-! ### Schema migration -/

/-- Version of archives the script can parse (`ARCHIVE_COMPAT`). -/
def ARCHIVE_COMPAT : Nat := 3

/-- One persisted item record of the archive document, as the migrator sees
it: the optional `deleted` history element (absent before version 3) plus all
the other key/value data of the record, which migration never touches. -/
structure ItemRec where
  deleted : Option (Element Bool)
  rest : List (String × String)
deriving DecidableEq

/-- The persisted archive document, as the migrator sees it.  `id` is present
in version 1 only; `url`, `livestreams` and `shorts` appear from version 2.
`rest` carries any further top-level fields, untouched by migration. -/
structure ArchiveDoc where
  version : Nat
  id : Option String
  url : Option String
  videos : List ItemRec
  livestreams : Option (List ItemRec)
  shorts : Option (List ItemRec)
  rest : List (String × String)
deriving DecidableEq

/-- Failure modes of migration: `unknownVersion` models the
`_err_msg` + `sys.exit(1)` pair of the unknown-version branch, `keyError`
models the `KeyError` Python raises when a field the step reads is absent. -/
inductive MigrateErr where
  | unknownVersion
  | keyError
deriving DecidableEq

/-- Embeds `migrate_step` (inside `_migrate_archive`): return the document
unchanged once `cur` equals the expected version; from version 1 replace `id`
by the channel-url field and add empty `livestreams`/`shorts` collections;
from version 2 add a `deleted` history element with a `false` default to every
record of all three collections; any other version is fatal.  Each step bumps
`cur`, rewrites the `version` field and recurses. -/
def migrateStep (expected now : Nat) (cur : Nat) (doc : ArchiveDoc) :
    Except MigrateErr ArchiveDoc :=
  if cur = expected then .ok doc
  else if h1 : cur = 1 then
    match doc.id with
    | none => .error .keyError
    | some cid =>
      let doc :=
        { doc with
          url := some ("https://www.youtube.com/channel/" ++ cid)
          id := none
          livestreams := some []
          shorts := some [] }
      migrateStep expected now (cur + 1) { doc with version := cur + 1 }
  else if h2 : cur = 2 then
    match doc.livestreams, doc.shorts with
    | some ls, some ss =>
      let addDel := fun (r : ItemRec) => { r with deleted := some (Element.new now false) }
      let doc :=
        { doc with
          videos := doc.videos.map addDel
          livestreams := some (ls.map addDel)
          shorts := some (ss.map addDel) }
      migrateStep expected now (cur + 1) { doc with version := cur + 1 }
    | _, _ => .error .keyError
  else .error .unknownVersion
termination_by 3 - cur
decreasing_by
  · subst h1; omega
  · subst h2; omega

/-- Embeds `_migrate_archive` (minus console output): start the recursion at
the document's current version. -/
def migrateArchive (currentVersion expectedVersion now : Nat) (doc : ArchiveDoc) :
    Except MigrateErr ArchiveDoc :=
  migrateStep expectedVersion now currentVersion doc

/-- Embeds the version check of `Channel.load`: migration runs only when the
stored version differs from `ARCHIVE_COMPAT`. -/
def loadArchive (now : Nat) (doc : ArchiveDoc) : Except MigrateErr ArchiveDoc :=
  if doc.version ≠ ARCHIVE_COMPAT then
    migrateArchive doc.version ARCHIVE_COMPAT now doc
  else .ok doc

/-! ### Sample values for concrete witnesses and counterexamples -/

/-- Sample undownloaded, not-yet-observed video (the state right after a
load). -/
def sampleVideo (id : String) (uploaded : Nat) : Video :=
  { id := id
    uploaded := uploaded
    title := Element.new 0 "title"
    deleted := Element.new 0 false
    downloaded := false
    knownNotDeleted := false }

/-- Sample raw metadata entry with one available format. -/
def sampleEntry (id : String) : RawEntry :=
  { id := id, title := "Title", formats := some ["22"], uploaded := 5 }

/-- Sample empty archive at the current version. -/
def emptyChannel : Channel :=
  { url := "https://www.youtube.com/channel/UC0"
    version := ARCHIVE_COMPAT
    videos := []
    livestreams := []
    shorts := []
    addedBucket := []
    deletedBucket := [] }

/-- Sample download configuration with no maximums. -/
def sampleConfig : DownloadConfig :=
  { max_videos := none
    max_livestreams := none
    max_shorts := none
    skip_download := false
    skip_metadata := false
    format := none }

/-- Sample version-1 archive document with one video record. -/
def sampleV1Doc : ArchiveDoc :=
  { version := 1
    id := some "CID"
    url := none
    videos := [{ deleted := none, rest := [("title", "hello")] }]
    livestreams := none
    shorts := none
    rest := [] }

/-! ### Shared helper lemmas -/

theorem searchList_eq_none (vs : List Video) (id : String)
    (h : ∀ v ∈ vs, v.id ≠ id) : searchList vs id = none := by
  induction vs with
  | nil => rfl
  | cons v rest ih =>
    simp only [searchList]
    rw [if_neg (h v (by simp))]
    exact ih fun w hw => h w (by simp [hw])

theorem searchList_first (pre : List Video) (v : Video) (post : List Video)
    (id : String) (hv : v.id = id) (hpre : ∀ w ∈ pre, w.id ≠ id) :
    searchList (pre ++ v :: post) id = some v := by
  induction pre with
  | nil => simp [searchList, hv]
  | cons w rest ih =>
    simp only [List.cons_append, searchList]
    rw [if_neg (hpre w (by simp))]
    exact ih fun u hu => hpre u (by simp [hu])

/-- Spec-side description of the deletion sweep's trigger, following §4.3 of
the spec: the item was not observed in this pass and its deletion history is
not already true. -/
def sweepCond (v : Video) : Bool :=
  v.deleted.current = some false && !v.knownNotDeleted

/-- Spec-side description of the deletion sweep's per-item action: flip the
deletion history to true when `sweepCond` holds, otherwise leave the item
alone. -/
def sweepFlip (now : Nat) (v : Video) : Video :=
  if sweepCond v then { v with deleted := v.deleted.update now true } else v

theorem reportDeleted_eq (now : Nat) (videos : List Video) (bucket : List String) :
    reportDeleted now videos bucket =
      (videos.map (sweepFlip now), bucket ++ (videos.filter sweepCond).map (·.id)) := by
  induction videos generalizing bucket with
  | nil => simp [reportDeleted]
  | cons v rest ih =>
    by_cases h : sweepCond v = true
    · simp only [reportDeleted, sweepCond] at h ⊢
      rw [if_pos h, ih]
      simp [sweepFlip, sweepCond, h]
    · simp only [reportDeleted, sweepCond] at h ⊢
      rw [if_neg h, ih]
      simp [sweepFlip, sweepCond, h]

theorem sweepCond_sweepFlip (now : Nat) (v : Video) :
    sweepCond (sweepFlip now v) = false := by
  by_cases h : sweepCond v = true
  · have h' : v.deleted.current = some false ∧ v.knownNotDeleted = false := by
      simpa [sweepCond, Bool.and_eq_true] using h
    obtain ⟨hc, hk⟩ := h'
    obtain ⟨t, rest, hb⟩ : ∃ t rest, v.deleted.hist = (t, false) :: rest := by
      rcases hh : v.deleted.hist with _ | ⟨⟨t, b⟩, rest⟩
      · rw [Element.current, hh] at hc; simp at hc
      · rw [Element.current, hh] at hc
        simp at hc
        exact ⟨t, rest, by rw [hc]⟩
    simp [sweepFlip, sweepCond, Element.update, Element.current, hb, hk]
  · simp only [sweepFlip, if_neg h]
    simp only [Bool.not_eq_true] at h
    exact h

theorem sweepFlip_sweepFlip (now now2 : Nat) (v : Video) :
    sweepFlip now2 (sweepFlip now v) = sweepFlip now v := by
  rw [sweepFlip, sweepCond_sweepFlip, if_neg (by simp)]

theorem migrate_v1_spec (now : Nat) (doc : ArchiveDoc) (cid : String)
    (hid : doc.id = some cid) :
    migrateArchive 1 ARCHIVE_COMPAT now doc =
      .ok { version := 3
            id := none
            url := some ("https://www.youtube.com/channel/" ++ cid)
            videos := doc.videos.map fun r => { r with deleted := some (Element.new now false) }
            livestreams := some []
            shorts := some []
            rest := doc.rest } := by
  rw [migrateArchive, ARCHIVE_COMPAT, migrateStep]
  simp only [hid]
  norm_num
  rw [migrateStep]
  norm_num
  rw [migrateStep]
  norm_num

/-! ### Claim theorems -/

/-- C1: evaluation of `curate_list` at the claim's inputs.  With three
undownloaded items and a maximum of 2 the first two are curated and a maximum
of 0 yields none, as claimed; but with one undownloaded item and a maximum of
1 the result is empty, because the code caps the candidate set at
`min(max(len - 1, 0), maximum)` — reserving one slot — whereas the claim (and
the code's own comment "Fix the maximum to the length so we don't try to get
more than there is") calls for the first `min(len, N)` items. -/
theorem c1_curate_cap_evaluation :
    curate_list [sampleVideo "a" 3, sampleVideo "b" 2, sampleVideo "c" 1] (some 2)
        = [sampleVideo "a" 3, sampleVideo "b" 2]
      ∧ curate_list [sampleVideo "a" 3, sampleVideo "b" 2, sampleVideo "c" 1] (some 0) = []
      ∧ (sampleVideo "a" 3).downloaded = false
      ∧ curate_list [sampleVideo "a" 3] (some 1) = [] :=
  ⟨rfl, rfl, rfl, rfl⟩

/-- C4: the deletion sweep (`_report_deleted`) flips the deletion history of
exactly the videos that were not observed in this pass and whose deletion
history is not already true, appending each of their ids to the reporter's
"deleted" bucket once; and the sweep is idempotent — a second sweep (a later
refresh that still omits the item) changes nothing and appends nothing,
because flipped items now have a true deletion history. -/
theorem c4_deletion_sweep (now now2 : Nat) (videos : List Video) (bucket : List String) :
    reportDeleted now videos bucket =
        (videos.map (sweepFlip now), bucket ++ (videos.filter sweepCond).map (·.id))
      ∧ reportDeleted now2 (reportDeleted now videos bucket).1
          (reportDeleted now videos bucket).2 = reportDeleted now videos bucket := by
  refine ⟨reportDeleted_eq now videos bucket, ?_⟩
  rw [reportDeleted_eq now videos bucket,
    reportDeleted_eq now2 (videos.map (sweepFlip now))
      (bucket ++ (videos.filter sweepCond).map (·.id))]
  rw [List.map_map, List.filter_map]
  have h1 : (sweepFlip now2 ∘ sweepFlip now) = sweepFlip now :=
    funext fun v => sweepFlip_sweepFlip now now2 v
  have h2 : videos.filter (sweepCond ∘ sweepFlip now) = [] :=
    List.filter_eq_nil_iff.mpr fun v _ => by
      simp [Function.comp, sweepCond_sweepFlip now v]
  rw [h1, h2]
  simp

/-- C10: `Channel.search` scans only the ordinary-videos collection — for an
identifier present in livestreams or shorts but matching no video in
`videos`, it raises `VideoNotFoundException` (modelled as `none`) — and
otherwise returns the first video of the `videos` collection whose identifier
matches. -/
theorem c10_search_scans_only_videos (c : Channel) (id : String) :
    ((∃ w ∈ c.livestreams ++ c.shorts, w.id = id) →
        (∀ v ∈ c.videos, v.id ≠ id) → c.search id = none)
      ∧ (∀ pre v post, c.videos = pre ++ v :: post → v.id = id →
          (∀ w ∈ pre, w.id ≠ id) → c.search id = some v) := by
  constructor
  · intro _ hnone
    exact searchList_eq_none c.videos id hnone
  · intro pre v post hsplit hv hpre
    rw [Channel.search, hsplit]
    exact searchList_first pre v post id hv hpre

/-- Witness for C10 at a concrete archive: "b" is found among the videos
(first match after the non-matching "a"), while "l" — stored only in the
livestreams collection — is not found. -/
theorem c10_search_scans_only_videos_witness :
    ({ emptyChannel with
        videos := [sampleVideo "a" 3, sampleVideo "b" 2]
        livestreams := [sampleVideo "l" 1] } : Channel).search "l" = none
      ∧ ({ emptyChannel with
            videos := [sampleVideo "a" 3, sampleVideo "b" 2]
            livestreams := [sampleVideo "l" 1] } : Channel).search "b"
          = some (sampleVideo "b" 2) := by
  constructor
  · exact (c10_search_scans_only_videos _ "l").1
      ⟨sampleVideo "l" 1, by simp, rfl⟩ (by decide)
  · exact (c10_search_scans_only_videos _ "b").2
      [sampleVideo "a" 3] (sampleVideo "b" 2) [] rfl rfl (by decide)

/-- C5: migrating a version-1 document to the current version (3) applies the
two step transformations and rewrites exactly the changed fields: `id` is
removed and replaced by `url` (the channel-URL prefix concatenated with the
old id), empty `livestreams` and `shorts` collections are added, every record
of all three collections gains a `deleted` history element with a `false`
default (the two new collections being empty, this touches the `videos`
records), the resulting `version` equals 3, and all other fields — `rest` of
the document and the `rest` data of every record — are unchanged. -/
theorem c5_migrate_v1_to_current (now : Nat) (doc : ArchiveDoc) (cid : String)
    (_hver : doc.version = 1) (hid : doc.id = some cid) :
    migrateArchive 1 ARCHIVE_COMPAT now doc =
      .ok { version := 3
            id := none
            url := some ("https://www.youtube.com/channel/" ++ cid)
            videos := doc.videos.map fun r => { r with deleted := some (Element.new now false) }
            livestreams := some []
            shorts := some []
            rest := doc.rest } :=
  migrate_v1_spec now doc cid hid

/-- Witness for C5 at a concrete version-1 document with one video record. -/
theorem c5_migrate_v1_to_current_witness :
    sampleV1Doc.version = 1
      ∧ migrateArchive 1 ARCHIVE_COMPAT 9 sampleV1Doc =
          .ok { version := 3
                id := none
                url := some "https://www.youtube.com/channel/CID"
                videos := [{ deleted := some (Element.new 9 false)
                             rest := [("title", "hello")] }]
                livestreams := some []
                shorts := some []
                rest := [] } :=
  ⟨rfl, c5_migrate_v1_to_current 9 sampleV1Doc "CID" rfl rfl⟩

/-- C7: for a stored version that is none of the known source versions (1, 2)
and not the current target version (3), migration is fatal — the
unknown-version branch of `migrate_step` calls `_err_msg` and `sys.exit(1)`
(the `.error .unknownVersion` result) without transforming or returning the
document. -/
theorem c7_migrate_unknown_version_fatal (v now : Nat) (doc : ArchiveDoc)
    (h1 : v ≠ 1) (h2 : v ≠ 2) (h3 : v ≠ ARCHIVE_COMPAT) :
    migrateArchive v ARCHIVE_COMPAT now doc = .error .unknownVersion := by
  rw [migrateArchive, migrateStep]
  rw [if_neg (by simpa [ARCHIVE_COMPAT] using h3), dif_neg h1, dif_neg h2]

/-- Witness for C7 at version 5 (above the current target). -/
theorem c7_migrate_unknown_version_fatal_witness :
    (5 ≠ 1 ∧ 5 ≠ 2 ∧ 5 ≠ ARCHIVE_COMPAT)
      ∧ migrateArchive 5 ARCHIVE_COMPAT 0 sampleV1Doc = .error .unknownVersion :=
  ⟨⟨by decide, by decide, by decide⟩,
   c7_migrate_unknown_version_fatal 5 0 sampleV1Doc (by decide) (by decide) (by decide)⟩

/-- C8: migration is idempotent at the current version — `migrate_step`
returns any document unchanged when `cur` already equals the expected
version, so re-migrating the output of a version-1-to-current migration is a
no-op — and `load` invokes migration only when the stored version differs
from `ARCHIVE_COMPAT`. -/
theorem c8_migration_idempotent (now now2 : Nat) (doc doc' : ArchiveDoc) (cid : String) :
    (migrateArchive ARCHIVE_COMPAT ARCHIVE_COMPAT now2 doc = .ok doc)
      ∧ (doc.version = ARCHIVE_COMPAT → loadArchive now2 doc = .ok doc)
      ∧ (doc.id = some cid → migrateArchive 1 ARCHIVE_COMPAT now doc = .ok doc' →
          loadArchive now2 doc' = .ok doc') := by
  refine ⟨?_, ?_, ?_⟩
  · rw [migrateArchive, migrateStep]
    simp
  · intro h
    simp [loadArchive, h]
  · intro hid hmig
    rw [migrate_v1_spec now doc cid hid] at hmig
    have hd : doc' = _ := (Except.ok.inj hmig).symm
    subst hd
    simp [loadArchive, ARCHIVE_COMPAT]

/-- Witness for C8: re-migrating and re-loading the migrated sample document
are no-ops. -/
theorem c8_migration_idempotent_witness :
    migrateArchive ARCHIVE_COMPAT ARCHIVE_COMPAT 0 sampleV1Doc = .ok sampleV1Doc
      ∧ loadArchive 0 { version := 3
                        id := none
                        url := some "https://www.youtube.com/channel/CID"
                        videos := [{ deleted := some (Element.new 9 false)
                                     rest := [("title", "hello")] }]
                        livestreams := some []
                        shorts := some []
                        rest := [] } =
          .ok { version := 3
                id := none
                url := some "https://www.youtube.com/channel/CID"
                videos := [{ deleted := some (Element.new 9 false)
                             rest := [("title", "hello")] }]
                livestreams := some []
                shorts := some []
                rest := [] } :=
  ⟨(c8_migration_idempotent 9 0 sampleV1Doc sampleV1Doc "CID").1,
   (c8_migration_idempotent 9 0 sampleV1Doc _ "CID").2.2 rfl
     (migrate_v1_spec 9 sampleV1Doc "CID" rfl)⟩

/-- Sample archive for the C2 refresh scenario: one pre-existing short that
the incoming metadata no longer mentions. -/
def sampleRefreshChannel : Channel :=
  { emptyChannel with shorts := [sampleVideo "old" 1] }

/-- Sample nested metadata document whose second group carries the
unrecognized trailing token "playlists". -/
def sampleRefreshEntries : List TopEntry :=
  [ { title := "Chan - Videos", entry := sampleEntry "x", nested := some [sampleEntry "a"] },
    { title := "Chan - Playlists", entry := sampleEntry "y", nested := some [sampleEntry "b"] } ]

theorem normalizeGroups_append_unknown (entries : List TopEntry) (g : TopEntry)
    (h1 : kindOf g.title ≠ "videos") (h2 : kindOf g.title ≠ "live")
    (h3 : kindOf g.title ≠ "shorts") :
    normalizeGroups (entries ++ [g]) = normalizeGroups entries := by
  unfold normalizeGroups
  rw [List.foldl_append]
  generalize List.foldl _ _ entries = acc
  cases acc with
  | none => rfl
  | some st => simp [h1, h2, h3]

/-- Counterexample to C2: a metadata document with a recognized "videos"
group and an unrecognized "playlists" group does not abort the refresh — the
recognized group is still merged (the "added" bucket receives "a") and the
deletion sweep still runs (the pre-existing unobserved short "old" enters the
"deleted" bucket), contradicting the claim that no category's entries are
merged and no deletion sweep runs. -/
theorem c2_unknown_kind_counterexample :
    (parseMetadata 0 sampleRefreshChannel sampleRefreshEntries).map
        (fun c => (c.addedBucket, c.deletedBucket)) = some (["a"], ["old"])
      ∧ (parseMetadata 0 sampleRefreshChannel sampleRefreshEntries).map
          (fun c => c.videos.map (·.id)) = some ["a"]
      ∧ kindOf "Chan - Playlists" ≠ "videos"
      ∧ kindOf "Chan - Playlists" ≠ "live"
      ∧ kindOf "Chan - Playlists" ≠ "shorts" := by
  refine ⟨by decide, by decide, by decide, by decide, by decide⟩

/-- C2 (amended): a top-level group whose trailing token (lower-cased) is
none of "videos", "live" or "shorts" is dropped after an error report —
`_err_msg` prints and returns, it does not terminate — and the refresh
proceeds exactly as if the unrecognized group were absent: the remaining
categories are merged and the deletion sweep runs. -/
theorem c2_unknown_kind_group_dropped (now : Nat) (c : Channel)
    (entries : List TopEntry) (g f : TopEntry)
    (hf : entries.head? = some f) (hn : f.nested.isSome = true)
    (h1 : kindOf g.title ≠ "videos") (h2 : kindOf g.title ≠ "live")
    (h3 : kindOf g.title ≠ "shorts") :
    parseMetadata now c (entries ++ [g]) = parseMetadata now c entries := by
  rcases entries with _ | ⟨e, tail⟩
  · simp at hf
  · obtain rfl : e = f := by simpa using hf
    obtain ⟨val, hval⟩ := Option.isSome_iff_exists.mp hn
    simp only [parseMetadata, List.cons_append, List.head?_cons, hval,
      Option.isNone_some, Bool.false_eq_true, if_false]
    rw [← List.cons_append, normalizeGroups_append_unknown _ g h1 h2 h3]

theorem mergeFold_filter (now : Nat) (i : List RawEntry) (st : List Video × List String) :
    i.foldl (fun p e => mergeEntry now p.1 p.2 e) st
      = (i.filter fun e => !skipEntry e).foldl (fun p e => mergeEntry now p.1 p.2 e) st := by
  induction i generalizing st with
  | nil => rfl
  | cons e rest ih =>
    by_cases h : skipEntry e = true
    · simp only [List.filter_cons, h, Bool.not_true, List.foldl_cons]
      rw [show mergeEntry now st.1 st.2 e = st by simp [mergeEntry, h]]
      exact ih st
    · simp only [Bool.not_eq_true] at h
      simp only [List.filter_cons, h, Bool.not_false, List.foldl_cons]
      exact ih _

theorem updateById_eq_none (now : Nat) (bucket : List Video) (e : RawEntry)
    (h : ∀ v ∈ bucket, v.id ≠ e.id) : updateById now bucket e = none := by
  induction bucket with
  | nil => rfl
  | cons v rest ih =>
    simp only [updateById]
    rw [if_neg (h v (by simp)), ih fun w hw => h w (by simp [hw])]

theorem updateById_first (now : Nat) (pre : List Video) (v : Video) (post : List Video)
    (e : RawEntry) (hv : v.id = e.id) (hpre : ∀ w ∈ pre, w.id ≠ e.id) :
    updateById now (pre ++ v :: post) e = some (pre ++ v.update now e :: post) := by
  induction pre with
  | nil => simp [updateById, hv]
  | cons w rest ih =>
    simp only [List.cons_append, updateById]
    rw [if_neg (hpre w (by simp)), List.append_eq,
      ih fun u hu => hpre u (by simp [hu])]

theorem mem_insertByNewest (v x : Video) (l : List Video) :
    x ∈ insertByNewest v l ↔ x = v ∨ x ∈ l := by
  induction l with
  | nil => simp [insertByNewest]
  | cons w ws ih =>
    by_cases h : w.uploaded < v.uploaded
    · rw [insertByNewest, if_pos h]
      simp only [List.mem_cons]
    · rw [insertByNewest, if_neg h]
      simp only [List.mem_cons, ih]
      tauto

theorem sorted_insertByNewest (v : Video) (l : List Video)
    (hl : l.Sorted fun a b => b.uploaded ≤ a.uploaded) :
    (insertByNewest v l).Sorted fun a b => b.uploaded ≤ a.uploaded := by
  induction l with
  | nil => simp [insertByNewest]
  | cons w ws ih =>
    rw [List.sorted_cons] at hl
    by_cases h : w.uploaded < v.uploaded
    · rw [insertByNewest, if_pos h]
      refine List.sorted_cons.mpr ⟨fun x hx => ?_, List.sorted_cons.mpr hl⟩
      rcases List.mem_cons.mp hx with rfl | hx
      · omega
      · have := hl.1 x hx
        omega
    · rw [insertByNewest, if_neg h]
      refine List.sorted_cons.mpr ⟨fun x hx => ?_, ih hl.2⟩
      rcases (mem_insertByNewest v x ws).mp hx with rfl | hx
      · omega
      · exact hl.1 x hx

theorem sorted_sortByNewest (l : List Video) :
    (sortByNewest l).Sorted fun a b => b.uploaded ≤ a.uploaded := by
  suffices h : ∀ acc : List Video, (acc.Sorted fun a b => b.uploaded ≤ a.uploaded) →
      ((l.foldl (fun acc v => insertByNewest v acc) acc).Sorted
        fun a b => b.uploaded ≤ a.uploaded) by
    exact h [] (by simp)
  induction l with
  | nil => exact fun acc hacc => hacc
  | cons v vs ih => exact fun acc hacc => ih _ (sorted_insertByNewest v acc hacc)

/-- C9: the merge phase skips entries lacking any available media format —
they never create an item, never update one and never touch the "added"
bucket; every other entry either updates the first item with a matching
identifier (leaving the "added" bucket alone) or appends a freshly built item
and records its id in the "added" bucket exactly once; and after merging, the
collection is sorted newest-first. -/
theorem c9_merge_skip_update_add (now : Nat) (i : List RawEntry) (bucket : List Video)
    (added : List String) (e : RawEntry) :
    (parseMetadataVideosComp now i bucket added
        = parseMetadataVideosComp now (i.filter fun e => !skipEntry e) bucket added)
      ∧ (skipEntry e = true → mergeEntry now bucket added e = (bucket, added))
      ∧ (skipEntry e = false → (∀ v ∈ bucket, v.id ≠ e.id) →
          mergeEntry now bucket added e = (bucket ++ [Video.new now e], added ++ [e.id]))
      ∧ (skipEntry e = false → ∀ pre v post, bucket = pre ++ v :: post → v.id = e.id →
          (∀ w ∈ pre, w.id ≠ e.id) →
          mergeEntry now bucket added e = (pre ++ v.update now e :: post, added))
      ∧ (parseMetadataVideosComp now i bucket added).1.Sorted
          (fun a b => b.uploaded ≤ a.uploaded) := by
  refine ⟨?_, ?_, ?_, ?_, ?_⟩
  · rw [parseMetadataVideosComp, parseMetadataVideosComp, mergeFold_filter]
  · intro h
    simp [mergeEntry, h]
  · intro h hnone
    simp [mergeEntry, h, updateById_eq_none now bucket e hnone]
  · intro h pre v post hb hv hpre
    subst hb
    simp [mergeEntry, h, updateById_first now pre v post e hv hpre]
  · rw [parseMetadataVideosComp]
    exact sorted_sortByNewest _

/-- Witness for C9: a format-less entry is a no-op, a fresh entry appends a
new item and its id, a matching entry updates in place without touching the
"added" bucket. -/
theorem c9_merge_skip_update_add_witness :
    mergeEntry 0 [] [] { id := "s", title := "T", formats := none, uploaded := 1 } = ([], [])
      ∧ mergeEntry 0 [] [] (sampleEntry "a")
          = ([Video.new 0 (sampleEntry "a")], ["a"])
      ∧ mergeEntry 0 [sampleVideo "a" 3] [] (sampleEntry "a")
          = ([(sampleVideo "a" 3).update 0 (sampleEntry "a")], []) :=
  ⟨(c9_merge_skip_update_add 0 [] [] [] _).2.1 rfl,
   (c9_merge_skip_update_add 0 [] [] [] (sampleEntry "a")).2.2.1 rfl (by simp),
   (c9_merge_skip_update_add 0 [] [sampleVideo "a" 3] [] (sampleEntry "a")).2.2.2.1 rfl
     [] (sampleVideo "a" 3) [] rfl rfl (by simp)⟩


/-- Sample archive with three undownloaded videos for the download scenario. -/
def sampleThreeChannel : Channel :=
  { emptyChannel with
    videos := [sampleVideo "a" 3, sampleVideo "b" 2, sampleVideo "c" 1] }

/-- Engine for the C3 scenario: during the first attempt, item #1 is fetched
and then the batch fails with a removed-by-uploader message; the re-issued
call succeeds.  Any further attempt would fail with an unclassified error, so
a completed download proves the retry budget was not consumed. -/
def sampleRemovedEngine : Nat → List DlResp := fun j =>
  if j = 0 then [.err 1 "ERROR: This video has been removed by the uploader", .ok]
  else [.err 0 "unclassified failure"]

/-- Expected archive state after the C3 scenario: items #1 and #3 downloaded,
item #2 skipped with its deletion history flipped to true and recorded once in
the "deleted" bucket. -/
def sampleThreeResult : Channel :=
  { emptyChannel with
    videos :=
      [{ sampleVideo "a" 3 with downloaded := true },
       { sampleVideo "b" 2 with deleted := ⟨[(7, true), (0, false)]⟩ },
       { sampleVideo "c" 1 with downloaded := true }]
    deletedBucket := ["b"] }

theorem skipVideo_some_split (videos : List Video) (rest : List Video) (v : Video)
    (h : skipVideo videos = some (rest, v)) :
    ∃ pre, videos = pre ++ v :: rest ∧ (∀ w ∈ pre, w.downloaded = true)
      ∧ v.downloaded = false := by
  induction videos generalizing rest with
  | nil => cases h
  | cons w ws ih =>
    by_cases hw : w.downloaded = true
    · rw [skipVideo, hw] at h
      simp only [Bool.not_true, Bool.false_eq_true, if_false] at h
      obtain ⟨pre, hpre, hall, hv⟩ := ih rest h
      refine ⟨w :: pre, by simp [hpre], ?_, hv⟩
      intro x hx
      rcases List.mem_cons.mp hx with rfl | hx
      · exact hw
      · exact hall x hx
    · have hw' : w.downloaded = false := by
        revert hw; cases w.downloaded <;> simp
      rw [skipVideo, hw'] at h
      simp only [Bool.not_false, if_true, Option.some.injEq, Prod.mk.injEq] at h
      obtain ⟨rfl, rfl⟩ := h
      exact ⟨[], rfl, by simp, hw'⟩

/-- Counterexample to C3 as stated: a `DownloadError` whose message contains
" bytes, expected " (the missing-format case) is not classified as
private/removed, yet it does not propagate to the outer retry loop either â
the inner loop skips the first undownloaded video inline, without flipping
its deletion history, and completes. -/
theorem c3_format_error_not_propagated :
    classifiedDeleted "File is 10 bytes, expected 20 bytes" = false
      ∧ classifiedFormat "File is 10 bytes, expected 20 bytes" = true
      ∧ innerLoop 7 [.err 0 "File is 10 bytes, expected 20 bytes", .ok]
          [sampleVideo "a" 3] [] []
          = .ok ([sampleVideo "a" 3], []) :=
  ⟨by decide, by decide, by decide⟩

/-- C3 (amended): when the fetch engine fails with a private/removed
classification, `_skip_video` removes the first undownloaded item and every
item before it from the pending list, the item's deletion history is set to
true exactly when it was not already true, its id enters the reporter's
"deleted" bucket exactly when the flag was freshly flipped, and fetching
resumes on the remainder within the inner loop (no outer retry consumed); a
missing-format failure (" bytes, expected ") is likewise handled inline by
skipping without a deletion flip; every remaining failure propagates to the
outer retry loop.  The final conjunct runs the claim's scenario: item #2 of 3
removed by its uploader, items #1 and #3 still fetched, download completed
without exhausting the retry budget. -/
theorem c3_inner_recovery (now : Nat) (tr : List DlResp) (pending rest : List Video)
    (bucket : List String) (handled : List Video) (n : Nat) (msg : String) (v : Video) :
    (skipVideo (markFront n pending) = some (rest, v) →
        ∃ pre, markFront n pending = pre ++ v :: rest ∧ (∀ w ∈ pre, w.downloaded = true)
          ∧ v.downloaded = false)
      ∧ (classifiedDeleted msg = true → skipVideo (markFront n pending) = some (rest, v) →
          (v.deleted.current = some false ∨ v.deleted.current = some true) →
          ∃ v', innerLoop now (.err n msg :: tr) pending bucket handled
                = innerLoop now tr rest
                    (bucket ++ if v.deleted.current = some false then [v.id] else [])
                    (handled ++ (markFront n pending).takeWhile (·.downloaded) ++ [v'])
              ∧ v'.deleted.current = some true
              ∧ v'.id = v.id
              ∧ (v.deleted.current = some true → v' = v))
      ∧ (classifiedDeleted msg = false → classifiedFormat msg = true →
          skipVideo (markFront n pending) = some (rest, v) →
          innerLoop now (.err n msg :: tr) pending bucket handled
            = innerLoop now tr rest bucket
                (handled ++ (markFront n pending).takeWhile (·.downloaded) ++ [v]))
      ∧ (classifiedDeleted msg = false → classifiedFormat msg = false →
          innerLoop now (.err n msg :: tr) pending bucket handled
            = .error (msg, handled ++ markFront n pending, bucket))
      ∧ Channel.download 7 sampleConfig sampleRemovedEngine sampleThreeChannel
          = .completed sampleThreeResult := by
  refine ⟨skipVideo_some_split _ rest v, ?_, ?_, ?_, by decide⟩
  · intro hcd hskip hlife
    rcases hlife with hcur | hcur
    · have hcur' : Option.map Prod.snd v.deleted.hist.head? = some false := hcur
      refine ⟨{ v with deleted := v.deleted.update now true }, ?_, ?_, rfl, ?_⟩
      · simp [innerLoop, hcd, hskip, hcur]
      · simp [Element.update, Element.current, hcur']
      · intro hcon; rw [hcon] at hcur; cases hcur
    · refine ⟨v, ?_, hcur, rfl, fun _ => rfl⟩
      simp [innerLoop, hcd, hskip, hcur]
  · intro h1 h2 hskip
    simp [innerLoop, h1, h2, hskip]
  · intro h1 h2
    simp [innerLoop, h1, h2]

/-- Witness for the amended C3 at a concrete one-item pending list failing
with a "Private video" message. -/
theorem c3_inner_recovery_witness :
    ∃ v', innerLoop 7 [DlResp.err 0 "Private video", DlResp.ok]
            [sampleVideo "b" 2] [] []
          = innerLoop 7 [DlResp.ok] []
              ([] ++ if (sampleVideo "b" 2).deleted.current = some false
                then [(sampleVideo "b" 2).id] else [])
              ([] ++ (markFront 0 [sampleVideo "b" 2]).takeWhile (·.downloaded) ++ [v'])
        ∧ v'.deleted.current = some true
        ∧ v'.id = (sampleVideo "b" 2).id
        ∧ ((sampleVideo "b" 2).deleted.current = some true → v' = sampleVideo "b" 2) :=
  (c3_inner_recovery 7 [DlResp.ok] [sampleVideo "b" 2] [] [] [] 0 "Private video"
    (sampleVideo "b" 2)).2.1 (by decide) (by decide) (Or.inl rfl)

/-- Witness for the amended C2 at a concrete document: appending the
"playlists" group leaves the refresh result unchanged. -/
theorem c2_unknown_kind_group_dropped_witness :
    parseMetadata 0 sampleRefreshChannel
        ([{ title := "Chan - Videos", entry := sampleEntry "x",
            nested := some [sampleEntry "a"] }] ++
          [{ title := "Chan - Playlists", entry := sampleEntry "y",
             nested := some [sampleEntry "b"] }])
      = parseMetadata 0 sampleRefreshChannel
          [{ title := "Chan - Videos", entry := sampleEntry "x",
             nested := some [sampleEntry "a"] }] :=
  c2_unknown_kind_group_dropped 0 sampleRefreshChannel _ _ _ rfl rfl
    (by decide) (by decide) (by decide)


theorem markFront_zero (l : List Video) : markFront 0 l = l := by
  cases l <;> rfl

theorem applyUpdate_undl (upd : List Video) (x : Video)
    (hupd : ∀ u ∈ upd, u.downloaded = false) (hx : x.downloaded = false) :
    (applyUpdate upd x).downloaded = false := by
  rw [applyUpdate]
  cases hf : upd.find? (fun u => u.id = x.id) with
  | none => exact hx
  | some u => exact hupd u (List.mem_of_find?_eq_some hf)

theorem applyUpdates_filter_ne_nil (l upd : List Video)
    (hupd : ∀ u ∈ upd, u.downloaded = false)
    (h : l.filter (fun v => !v.downloaded) ≠ []) :
    (applyUpdates l upd).filter (fun v => !v.downloaded) ≠ [] := by
  intro hnil
  apply h
  rw [List.filter_eq_nil_iff] at hnil ⊢
  intro x hx
  have hfx := hnil (applyUpdate upd x) (List.mem_map_of_mem _ hx)
  simp only [Bool.not_eq_true] at hfx ⊢
  by_contra hxd
  rw [Bool.not_eq_false] at hxd
  rw [applyUpdate_undl upd x hupd (by revert hxd; cases x.downloaded <;> simp)] at hfx
  cases hfx

theorem curate_list_applyUpdates_ne_nil (l upd : List Video) (m : Option Nat)
    (hupd : ∀ u ∈ upd, u.downloaded = false)
    (h : curate_list l m ≠ []) : curate_list (applyUpdates l upd) m ≠ [] := by
  rcases m with _ | k
  · exact applyUpdates_filter_ne_nil l upd hupd h
  · simp only [curate_list] at h ⊢
    rw [show (applyUpdates l upd).length = l.length from List.length_map _ _]
    rw [show (applyUpdates l upd).take (min (max (l.length - 1) 0) k)
          = applyUpdates (l.take (min (max (l.length - 1) 0) k)) upd from
        (List.map_take _ _ _).symm]
    exact applyUpdates_filter_ne_nil _ upd hupd h

theorem curate_list_undl (l : List Video) (m : Option Nat) :
    ∀ u ∈ curate_list l m, u.downloaded = false := by
  intro u hu
  simp only [curate_list] at hu
  have := List.of_mem_filter hu
  simpa using this

theorem curate_undl (c : Channel) (config : DownloadConfig) :
    ∀ u ∈ c.curate config, u.downloaded = false := by
  intro u hu
  simp only [Channel.curate, List.mem_append] at hu
  rcases hu with (hu | hu) | hu
  · exact curate_list_undl _ _ u hu
  · exact curate_list_undl _ _ u hu
  · exact curate_list_undl _ _ u hu

theorem curate_applyAll_ne_nil (c : Channel) (config : DownloadConfig)
    (upd : List Video) (b : List String)
    (hupd : ∀ u ∈ upd, u.downloaded = false)
    (h : c.curate config ≠ []) :
    (c.applyAll upd b).curate config ≠ [] := by
  intro hc
  apply h
  simp only [Channel.curate, Channel.applyAll, List.append_eq_nil] at hc ⊢
  refine ⟨⟨?_, ?_⟩, ?_⟩
  · by_contra hne
    exact curate_list_applyUpdates_ne_nil _ upd _ hupd hne hc.1.1
  · by_contra hne
    exact curate_list_applyUpdates_ne_nil _ upd _ hupd hne hc.1.2
  · by_contra hne
    exact curate_list_applyUpdates_ne_nil _ upd _ hupd hne hc.2

theorem downloadAttempts_unclassified_step (now : Nat) (config : DownloadConfig)
    (engine : Nat → List DlResp) (i : Nat) (rest : List Nat) (c : Channel) (msg : String)
    (hi : engine i = [.err 0 msg])
    (h1 : classifiedDeleted msg = false) (h2 : classifiedFormat msg = false)
    (hne : c.curate config ≠ []) :
    downloadAttempts now config engine (i :: rest) c
      = if i ≠ 4 then
          downloadAttempts now config engine rest
            (c.applyAll (c.curate config) c.deletedBucket)
        else .fatal (c.applyAll (c.curate config) c.deletedBucket) := by
  rw [downloadAttempts]
  simp only [hi, innerLoop, h1, h2, markFront_zero, List.nil_append]
  rw [if_neg (by simpa [List.length_eq_zero] using hne)]
  simp

theorem downloadAttempts_congr (now : Nat) (config : DownloadConfig)
    (engine engine2 : Nat → List DlResp) :
    ∀ (is : List Nat) (c : Channel), (∀ j ∈ is, engine j = engine2 j) →
      downloadAttempts now config engine is c
        = downloadAttempts now config engine2 is c := by
  intro is
  induction is with
  | nil => intro c _; rfl
  | cons i rest ih =>
    intro c hag
    rw [downloadAttempts, downloadAttempts, hag i (by simp)]
    by_cases hnd : (c.curate config).length = 0
    · rw [if_pos hnd, if_pos hnd]
    · rw [if_neg hnd, if_neg hnd]
      cases innerLoop now (engine2 i) (c.curate config) c.deletedBucket [] with
      | ok r => rfl
      | error r =>
        show (if i ≠ 4 then downloadAttempts now config engine rest (c.applyAll r.2.1 r.2.2)
              else .fatal (c.applyAll r.2.1 r.2.2))
            = if i ≠ 4 then downloadAttempts now config engine2 rest (c.applyAll r.2.1 r.2.2)
              else .fatal (c.applyAll r.2.1 r.2.2)
        by_cases hi : i ≠ 4
        · rw [if_pos hi, if_pos hi]
          exact ih _ fun j hj => hag j (by simp [hj])
        · rw [if_neg hi, if_neg hi]

theorem downloadAttempts_unclassified_fatal (now : Nat) (config : DownloadConfig)
    (engine : Nat → List DlResp) (msg : String)
    (h1 : classifiedDeleted msg = false) (h2 : classifiedFormat msg = false)
    (hbad : ∀ j, engine j = [.err 0 msg]) :
    ∀ (js : List Nat) (c : Channel), (∀ j ∈ js, j ≠ 4) → c.curate config ≠ [] →
      ∃ c', downloadAttempts now config engine (js ++ [4]) c = .fatal c' := by
  intro js
  induction js with
  | nil =>
    intro c _ hne
    refine ⟨c.applyAll (c.curate config) c.deletedBucket, ?_⟩
    rw [List.nil_append,
      downloadAttempts_unclassified_step now config engine 4 [] c msg (hbad 4) h1 h2 hne]
    simp
  | cons j js ih =>
    intro c hj hne
    rw [List.cons_append,
      downloadAttempts_unclassified_step now config engine j _ c msg (hbad j) h1 h2 hne,
      if_pos (hj j (by simp))]
    exact ih _ (fun x hx => hj x (by simp [hx]))
      (curate_applyAll_ne_nil c config _ _ (curate_undl c config) hne)

/-- Engine that always fails with an unclassified message. -/
def sampleEngineBoom : Nat → List DlResp := fun _ => [.err 0 "boom"]

/-- Engine that fails unclassified on the first attempt only. -/
def sampleRetryEngine : Nat → List DlResp := fun j =>
  if j = 0 then [.err 0 "boom"] else [.ok]

/-- Archive with a single undownloaded video. -/
def sampleOneChannel : Channel := { emptyChannel with videos := [sampleVideo "a" 3] }

/-- The same archive once its video has been fetched. -/
def sampleOneDone : Channel :=
  { emptyChannel with videos := [{ sampleVideo "a" 3 with downloaded := true }] }

/-- Engine that only misbehaves from attempt 5 on (which is never reached). -/
def sampleLateEngine : Nat → List DlResp := fun j =>
  if j < 5 then [.ok] else [.err 0 "late"]

/-- Engine that always succeeds. -/
def sampleOkEngine : Nat → List DlResp := fun _ => [.ok]

/-- C6: the download operation attempts the curate-plus-fetch cycle at most 5
times in total — its outcome depends only on the engine's behavior during
attempts 0..4 — re-curating at the start of every attempt; an empty curated
list completes the operation successfully at any attempt; when every attempt
fails with an unclassified error the operation ends in the process-fatal
result (no partial-success value); and the final conjunct shows an
unclassified failure being retried and succeeding on the second attempt. -/
theorem c6_download_retry_bounded (now : Nat) (config : DownloadConfig) (c : Channel)
    (engine engine2 : Nat → List DlResp) (msg : String) :
    ((∀ j, j < 5 → engine j = engine2 j) →
        c.download now config engine = c.download now config engine2)
      ∧ (c.curate config = [] → c.download now config engine = .completed c)
      ∧ (classifiedDeleted msg = false → classifiedFormat msg = false →
          (∀ j, engine j = [.err 0 msg]) → c.curate config ≠ [] →
          ∃ c', c.download now config engine = .fatal c')
      ∧ Channel.download 0 sampleConfig sampleRetryEngine sampleOneChannel
          = .completed sampleOneDone := by
  refine ⟨?_, ?_, ?_, by decide⟩
  · intro hag
    exact downloadAttempts_congr now config engine engine2 [0, 1, 2, 3, 4] c
      fun j hj => hag j (by simp at hj; omega)
  · intro hemp
    rw [Channel.download, downloadAttempts, if_pos (by simp [hemp])]
  · intro h1 h2 hbad hne
    exact downloadAttempts_unclassified_fatal now config engine msg h1 h2 hbad
      [0, 1, 2, 3] c (by decide) hne

/-- Witness for C6: engines agreeing on attempts 0..4 give equal outcomes, an
empty archive completes immediately, and an always-unclassified engine ends
fatal. -/
theorem c6_download_retry_bounded_witness :
    Channel.download 0 sampleConfig sampleLateEngine sampleOneChannel
        = Channel.download 0 sampleConfig sampleOkEngine sampleOneChannel
      ∧ Channel.download 0 sampleConfig sampleEngineBoom emptyChannel
          = .completed emptyChannel
      ∧ ∃ c', Channel.download 0 sampleConfig sampleEngineBoom sampleOneChannel
          = .fatal c' :=
  ⟨(c6_download_retry_bounded 0 sampleConfig sampleOneChannel sampleLateEngine
      sampleOkEngine "x").1
      (fun j hj => by simp [sampleLateEngine, sampleOkEngine, hj]),
   (c6_download_retry_bounded 0 sampleConfig emptyChannel sampleEngineBoom
      sampleEngineBoom "x").2.1 rfl,
   (c6_download_retry_bounded 0 sampleConfig sampleOneChannel sampleEngineBoom
      sampleEngineBoom "boom").2.2.1 (by decide) (by decide) (fun _ => rfl) (by decide)⟩

end Yark
